import Mathlib

/-!
Verification of the MCP tool-federation manager (`MCPClientManager`) and the
chat streaming orchestrator (`LlmManager`) of the onlook repository.

The TypeScript sources are embedded shallowly:
* strings are Lean `String`s, and the JavaScript single-character
  `String.prototype.split` / `Array.prototype.join` pair is modelled on
  `List Char`;
* JavaScript objects used as string-keyed maps (`this.clients`,
  `this.toolsCache`, `toolSet`, …) are association lists in property
  (insertion) order, with assignment and indexing modelled by `setAssoc`
  and `lookupAssoc`;
* `async` code is modelled as pure state-passing: each external call
  (`connect`, `client.tools()`, `toolFn.execute`) is represented by its
  outcome, an `Except String` value, and a thrown exception is the
  `.error` case;
* the concurrent loops (`Promise.all` over independent per-server tasks)
  run on one event loop and their observable results are interleaving
  independent here, so they are modelled as folds in entry order.
-/

/-! ### Namespace mapping: `escapeServerName` and `dispatchToolDefinitionName`
    (packages/ai `MCPClientManager`) -/

/-- The character class `[a-zA-Z0-9_]` tested by `escapeServerName`. -/
def isWordChar (c : Char) : Bool :=
  ('a' ≤ c && c ≤ 'z') || ('A' ≤ c && c ≤ 'Z') || ('0' ≤ c && c ≤ '9') || c = '_'

/-- One hexadecimal digit as produced by JavaScript `Number.prototype.toString(16)`
(lowercase). -/
def hexDigitChar (n : Nat) : Char :=
  if n < 10 then Char.ofNat (48 + n) else Char.ofNat (87 + n)

/-- Fuel-driven helper for `natToHex`; the fuel bounds the number of divisions. -/
def toHexAux : Nat → Nat → List Char
  | 0, _ => []
  | fuel + 1, n =>
    if n < 16 then [hexDigitChar n]
    else toHexAux fuel (n / 16) ++ [hexDigitChar (n % 16)]

/-- Models JavaScript `n.toString(16)`: minimal lowercase hexadecimal digits. -/
def natToHex (n : Nat) : List Char := toHexAux (n + 1) n

/-- The per-character body of `escapeServerName`: characters in `[a-zA-Z0-9_]`
pass through, any other character becomes `'_'` followed by its code point in
hexadecimal. -/
def escapeChar (c : Char) : List Char :=
  if isWordChar c then [c] else '_' :: natToHex c.toNat

/-- `escapeServerName` (source: `serverName.split('').map(...).join('')`). -/
def escapeServerName (serverName : String) : String :=
  ((serverName.data.map escapeChar).flatten).asString

/-- Models JavaScript `str.split(sep)` for a single-character separator,
on the character list of the string.  `''.split('-') = ['']`, and adjacent
separators produce empty fragments, exactly as in JavaScript. -/
def jsSplitOnChar (sep : Char) : List Char → List (List Char)
  | [] => [[]]
  | c :: cs =>
    let rest := jsSplitOnChar sep cs
    if c = sep then [] :: rest
    else
      match rest with
      | [] => [[c]]
      | r :: rs => (c :: r) :: rs

/-- Models JavaScript `parts.join(sep)` for a single-character separator. -/
def jsJoinChar (sep : Char) : List (List Char) → List Char
  | [] => []
  | [x] => x
  | x :: xs => x ++ sep :: jsJoinChar sep xs

/-- `dispatchToolDefinitionName`: split on `'-'`, the first fragment is the
escaped server name, the remaining fragments rejoined with `'-'` are the tool
name (source destructures `[escapedServerName, ...toolNameParts]`). -/
def dispatchToolDefinitionName (toolDefinitionName : String) : String × String :=
  match jsSplitOnChar '-' toolDefinitionName.data with
  | [] => ("", "")
  | escapedServerName :: toolNameParts =>
    (escapedServerName.asString, (jsJoinChar '-' toolNameParts).asString)

/-! ### The MCP client manager state (`MCPClientManager`, `experimental_createMCPClient` variant)

Type parameters: `α` is the type of tool arguments, `β` the type of tool
results, `σ` the type of raw input schemas carried by tool manifests. -/

/-- JavaScript object indexing `obj[key]` over an association list in
property order. -/
def lookupAssoc {κ : Type} : List (String × κ) → String → Option κ
  | [], _ => none
  | (k, v) :: rest, key => if k = key then some v else lookupAssoc rest key

/-- JavaScript object assignment `obj[key] = value`: overwrites in place,
or appends a new property at the end. -/
def setAssoc {κ : Type} (key : String) (value : κ) :
    List (String × κ) → List (String × κ)
  | [] => [(key, value)]
  | (k, v) :: rest =>
    if k = key then (key, value) :: rest else (k, v) :: setAssoc key value rest

/-- One entry of the tool set returned by `client.tools()`: description,
the raw schema at `toolObj.parameters?._def?.schema` (`none` models its
absence), and the executable body. -/
structure MCPToolObj (α β σ : Type) where
  description : Option String
  parametersSchema : Option σ
  execute : α → Except String β

/-- A connected MCP client.  `tools` is the outcome of `client.tools()`:
the manifest as an association list of raw tool names, or the error the
call rejects with. -/
structure MCPClientConn (α β σ : Type) where
  tools : Except String (List (String × MCPToolObj α β σ))

/-- `MCPTool` metadata record built by `listAllTools`. -/
structure MCPTool (σ : Type) where
  name : String
  description : String
  input_schema : Option σ
  server : String
deriving DecidableEq

/-- One configured server: the `disabled` flag, and the outcome of the
transport creation plus `experimental_createMCPClient` connect attempt
(the stdio/sse transport parameters are external inputs that only
determine this outcome). -/
structure ManagedServerParameters (α β σ : Type) where
  disabled : Bool
  connect : Except String (MCPClientConn α β σ)

/-- `MCPConfig`: the `mcpServers` record in property order. -/
structure MCPConfig (α β σ : Type) where
  mcpServers : List (String × ManagedServerParameters α β σ)

/-- The mutable fields of `MCPClientManager`. -/
structure ManagerState (α β σ : Type) where
  clients : List (String × MCPClientConn α β σ)
  tools : List (MCPTool σ)
  toolsCache : List (String × MCPToolObj α β σ)
  serverToEscapedMap : List (String × String)
  escapedToServerMap : List (String × String)

/-- The state of a freshly constructed `MCPClientManager`. -/
def initialManagerState {α β σ : Type} : ManagerState α β σ :=
  ⟨[], [], [], [], []⟩

/-- `initializeStdioClient` / `initializeSseClient`: store the name
mappings, then try to connect; a connect failure is caught and logged, and
only a successful connect stores the client under the escaped key. -/
def initializeSingleClient {α β σ : Type} (st : ManagerState α β σ) (key : String)
    (params : ManagedServerParameters α β σ) : ManagerState α β σ :=
  let escapedKey := escapeServerName key
  let st1 := { st with
    serverToEscapedMap := setAssoc key escapedKey st.serverToEscapedMap,
    escapedToServerMap := setAssoc escapedKey key st.escapedToServerMap }
  match params.connect with
  | .ok client => { st1 with clients := setAssoc escapedKey client st1.clients }
  | .error _ => st1

/-- `initializeClients`: every enabled server is attempted, disabled servers
are skipped.  The attempts run as logically simultaneous tasks on one event
loop under `Promise.all`; their observable result does not depend on the
interleaving, so they are modelled as a fold in configuration order. -/
def initializeClients {α β σ : Type} (st : ManagerState α β σ)
    (config : MCPConfig α β σ) : ManagerState α β σ :=
  config.mcpServers.foldl
    (fun st kv => if kv.2.disabled then st else initializeSingleClient st kv.1 kv.2) st

/-- The client-map entries produced by a configuration: one entry per
enabled server whose connect attempt succeeded, keyed by the escaped name,
in configuration order. -/
def connectedEntries {α β σ : Type}
    (servers : List (String × ManagedServerParameters α β σ)) :
    List (String × MCPClientConn α β σ) :=
  servers.filterMap (fun kv =>
    if kv.2.disabled then none
    else
      match kv.2.connect with
      | .ok client => some (escapeServerName kv.1, client)
      | .error _ => none)

/-- An entry of `mcpServers` that is enabled. -/
def enabledB {α β σ : Type} (kv : String × ManagedServerParameters α β σ) : Bool :=
  !kv.2.disabled

/-- An entry of `mcpServers` that is enabled and whose connect attempt throws. -/
def enabledFailedB {α β σ : Type} (kv : String × ManagedServerParameters α β σ) : Bool :=
  !kv.2.disabled &&
    (match kv.2.connect with
     | .error _ => true
     | .ok _ => false)

/-- The escaped names of the enabled servers, in configuration order. -/
def enabledEscapes {α β σ : Type}
    (servers : List (String × ManagedServerParameters α β σ)) : List String :=
  (servers.filter enabledB).map (fun kv => escapeServerName kv.1)

/-- `callTool`: dispatch the prefixed name, look up the client under the
escaped server name, resolve the tool from the cache or else from a fresh
`client.tools()` manifest (caching it), and execute it.  Thrown errors are
logged and rethrown, so every failure surfaces as the `.error` case; a
success returns the provider's result payload unchanged together with the
updated manager state. -/
def callTool {α β σ : Type} (st : ManagerState α β σ) (toolDefinitionName : String)
    (args : α) : Except String (β × ManagerState α β σ) :=
  let d := dispatchToolDefinitionName toolDefinitionName
  match lookupAssoc st.clients d.1 with
  | none => .error ("No client found for server: " ++ d.1)
  | some client =>
    match lookupAssoc st.toolsCache toolDefinitionName with
    | some toolFn =>
      match toolFn.execute args with
      | .ok result => .ok (result, st)
      | .error e => .error e
    | none =>
      match client.tools with
      | .error e => .error e
      | .ok toolSet =>
        match lookupAssoc toolSet d.2 with
        | none => .error ("Tool not found: " ++ d.2)
        | some toolFn =>
          match toolFn.execute args with
          | .ok result =>
            .ok (result, { st with
              toolsCache := setAssoc toolDefinitionName toolFn st.toolsCache })
          | .error e => .error e

/-- `listAllTools`: if `this.tools` is non-empty return it unchanged,
otherwise query every client's `client.tools()` (a per-server failure
contributes an empty list), flatten in client order, and cache the result.
The third component instruments the model with the number of
`client.tools()` queries the call performs. -/
def listAllTools {α β σ : Type} (st : ManagerState α β σ) :
    List (MCPTool σ) × ManagerState α β σ × Nat :=
  if 0 < st.tools.length then (st.tools, st, 0)
  else
    let fetched := ((st.clients.map (fun sc =>
      match sc.2.tools with
      | .ok toolSet => toolSet.map (fun nt =>
          { name := nt.1
            description := nt.2.description.getD ""
            input_schema := nt.2.parametersSchema
            server := sc.1 : MCPTool σ })
      | .error _ => [])).flatten)
    (fetched, { st with tools := fetched }, st.clients.length)

/-! ### The chat streaming orchestrator (`LlmManager`, electron/main/chat)

`Q` is the type of the parsed `UsageCheckResult` quota payload and `μ` the
type of the final message envelope; both are opaque to the classification
logic. -/

/-- The shapes a value caught by `stream()`'s `catch (error)` can take,
as far as the classification code distinguishes them.  `providerErr` is an
error whose `error.error.statusCode` field is present (`statusCode` is the
number, `responseBody` the optional body string); the remaining
constructors mirror the runtime-type tests of `getErrorMessage`:
`instanceof Error` (which includes the `AbortError` raised by
cancellation), a plain string, a `Response`, an object with a `message`
property, and anything else. -/
inductive CaughtError where
  | providerErr (statusCode : Int) (responseBody : Option String)
  | jsError (message : String)
  | stringErr (s : String)
  | responseErr (statusText : String)
  | objWithMessage (message : String)
  | otherErr

/-- `getErrorMessage`: the best-effort human-readable message. -/
def getErrorMessage : CaughtError → String
  | .jsError m => m
  | .stringErr s => s
  | .responseErr statusText => statusText
  | .objWithMessage m => m
  | _ => "An unknown error occurred"

/-- Whether the caught value exposes a structured `error.statusCode`. -/
def CaughtError.isProviderError : CaughtError → Bool
  | .providerErr _ _ => true
  | _ => false

/-- `CompletedStreamResponse`: the terminal outcome `stream()` resolves
with (`type: 'full' | 'rate-limited' | 'error'`). -/
inductive CompletedStreamResponse (μ Q : Type) where
  | full (payload : μ)
  | rateLimited (rateLimitResult : Q)
  | errorResp (message : Option String)

/-- The `catch` block of `stream()` (lines 123-150): a truthy
`error.error.statusCode` equal to 403 parses the body as a
`UsageCheckResult` (`parseUsageCheckResult` models `JSON.parse`; `none` is
a parse throw, caught by the inner `catch` which returns the unknown-error
message); any other truthy status returns the body as the message; every
other caught value gets `getErrorMessage`.  The function is total: the
original promise always resolves, it never rejects. -/
def classifyStreamError {μ Q : Type} (parseUsageCheckResult : String → Option Q)
    (error : CaughtError) : CompletedStreamResponse μ Q :=
  match error with
  | .providerErr statusCode responseBody =>
    if statusCode ≠ 0 then
      if statusCode = 403 then
        match responseBody with
        | some body =>
          match parseUsageCheckResult body with
          | some rateLimitError => .rateLimited rateLimitError
          | none => .errorResp (some "An unknown error occurred")
        | none => .errorResp (some "An unknown error occurred")
      else .errorResp responseBody
    else .errorResp (some (getErrorMessage (.providerErr statusCode responseBody)))
  | e => .errorResp (some (getErrorMessage e))

/-! #### `abortStream` and the abort-controller lifecycle -/

/-- The `abortController` field of `LlmManager`: `true` models a non-null
controller. -/
structure LlmManagerState where
  hasAbortController : Bool
deriving DecidableEq

/-- Entry of `stream()` (line 71): installs a fresh (or caller-provided)
abort controller. -/
def streamEntryState (_st : LlmManagerState) : LlmManagerState := ⟨true⟩

/-- Resolution of `stream()`.  The happy path returns from the outer `try`
directly and runs no cleanup; only the error path passes through the inner
`try/catch/finally` of the `catch` block, whose `finally` (line 148) resets
the controller to null. -/
def streamResolveState (errored : Bool) (st : LlmManagerState) : LlmManagerState :=
  if errored then ⟨false⟩ else st

/-- `abortStream()` (lines 153-159): if a controller is present, trigger it
and return `true`; otherwise return `false` and trigger nothing. -/
def abortStream (st : LlmManagerState) : Bool :=
  st.hasAbortController

/-- The externally visible events of one `LlmManager`'s lifetime that touch
the abort controller. -/
inductive LlmEvent where
  | streamStart
  | streamResolve (errored : Bool)
deriving DecidableEq

/-- How each event transforms the `abortController` field. -/
def stepLlm (st : LlmManagerState) : LlmEvent → LlmManagerState
  | .streamStart => streamEntryState st
  | .streamResolve errored => streamResolveState errored st

/-- The manager state after a history of stream events, starting from the
constructed state (controller null). -/
def runLlm (events : List LlmEvent) : LlmManagerState :=
  events.foldl stepLlm ⟨false⟩

def isStreamStart : LlmEvent → Bool
  | .streamStart => true
  | _ => false

def isStreamResolve : LlmEvent → Bool
  | .streamResolve _ => true
  | _ => false

/-- Modelled from the spec: a stream is "actually active" when an in-flight
`stream()` call has started and not yet resolved. -/
def streamActive (events : List LlmEvent) : Bool :=
  events.countP isStreamResolve < events.countP isStreamStart

/-! #### Forwarding of partial stream events -/

/-- `PartialStreamResponse` envelope sent on the `CHAT_STREAM_PARTIAL`
channel. -/
structure PartialStreamResponse (ε : Type) where
  type : String
  payload : ε
deriving DecidableEq

/-- `emitMessagePart` (lines 161-167): wraps one partial event for the
display channel. -/
def emitMessagePart {ε : Type} (streamPart : ε) : PartialStreamResponse ε :=
  { type := "partial", payload := streamPart }

/-- One observable action of the `for await (const partialStream of
fullStream)` loop: pulling the next event from the model stream, sending
one envelope to the display channel, or resolving. -/
inductive StreamAction (ε : Type) where
  | consumeEvent (e : ε)
  | emitPart (r : PartialStreamResponse ε)
  | resolveStream
deriving DecidableEq

/-- The action trace of the consumer loop (lines 112-116) on a model stream
that produces `events`: one sequential reader that, for each event in
arrival order, emits its envelope before pulling the next event, and
resolves after the stream is exhausted. -/
def streamEventTrace {ε : Type} : List ε → List (StreamAction ε)
  | [] => [.resolveStream]
  | e :: es => .consumeEvent e :: .emitPart (emitMessagePart e) :: streamEventTrace es

/-- The payloads sent to the display channel, in order. -/
def emittedPayloads {ε : Type} : List (StreamAction ε) → List ε
  | [] => []
  | .emitPart r :: rest => r.payload :: emittedPayloads rest
  | _ :: rest => emittedPayloads rest

/-- The events pulled from the model stream, in order. -/
def consumedEvents {ε : Type} : List (StreamAction ε) → List ε
  | [] => []
  | .consumeEvent e :: rest => e :: consumedEvents rest
  | _ :: rest => consumedEvents rest

def isResolveAction {ε : Type} : StreamAction ε → Bool
  | .resolveStream => true
  | _ => false

/-- How many times the trace resolves. -/
def resolveCount {ε : Type} (tr : List (StreamAction ε)) : Nat :=
  tr.countP isResolveAction

/-! ### `convertJsonSchemaToZod` (electron/main/chat, lines 214-267)

The JSON-Schema-like input description is a mutual inductive (Lean 4.14
does not compile structural recursion through `List`/`Option` nesting);
`OptJsonSchema`, `OptProperties` and `SchemaProperties` are the `items`
option, the `properties` option and the property list. -/

mutual
inductive JsonSchema where
  | mk (type : Option String) (properties : OptProperties)
      (required : Option (List String)) (enumVals : Option (List String))
      (items : OptJsonSchema) (description : Option String)

inductive OptJsonSchema where
  | noneJ
  | someJ (s : JsonSchema)

inductive OptProperties where
  | noneP
  | someP (ps : SchemaProperties)

inductive SchemaProperties where
  | nilP
  | consP (key : String) (s : JsonSchema) (rest : SchemaProperties)
end

/-- JSON values, as far as Zod validation distinguishes them.  JavaScript
numbers are modelled as rationals; an integral number is one with
denominator 1. -/
inductive Json where
  | null
  | bool (b : Bool)
  | num (q : ℚ)
  | str (s : String)
  | arr (elems : List Json)
  | obj (fields : List (String × Json))

/-- A Zod schema, modelled by its acceptance behaviour on a value:
the argument is `some v` for a present value and `none` for a missing
(undefined) object property. -/
abbrev ZodValidator := Option Json → Bool

/-- `z.any()`: accepts anything, including undefined. -/
def zAny : ZodValidator := fun _ => true

/-- `z.string()`. -/
def zString : ZodValidator := fun v =>
  match v with
  | some (.str _) => true
  | _ => false

/-- `z.enum(vs)`: one of the listed string values. -/
def zEnum (vs : List String) : ZodValidator := fun v =>
  match v with
  | some (.str s) => vs.contains s
  | _ => false

/-- `z.number()`. -/
def zNumber : ZodValidator := fun v =>
  match v with
  | some (.num _) => true
  | _ => false

/-- `z.number().int()`: an integral number. -/
def zNumberInt : ZodValidator := fun v =>
  match v with
  | some (.num q) => q.den == 1
  | _ => false

/-- `z.boolean()`. -/
def zBoolean : ZodValidator := fun v =>
  match v with
  | some (.bool _) => true
  | _ => false

/-- `z.array(elem)`. -/
def zArray (elem : ZodValidator) : ZodValidator := fun v =>
  match v with
  | some (.arr l) => l.all (fun e => elem (some e))
  | _ => false

/-- `.optional()`: additionally accepts a missing (undefined) value. -/
def zOptional (t : ZodValidator) : ZodValidator := fun v =>
  match v with
  | none => true
  | some x => t (some x)

/-- `z.object(fields)`: an object each of whose declared fields validates
(unknown extra keys are accepted and stripped, Zod's default). -/
def zObject (fields : List (String × ZodValidator)) : ZodValidator := fun v =>
  match v with
  | some (.obj kvs) => fields.all (fun f => f.2 (lookupAssoc kvs f.1))
  | _ => false

mutual
/-- The body of `convertJsonSchemaToZod` on a non-null schema: without
`properties` it is `z.object({})`, otherwise the per-property switch runs
over `properties` with `required = schema.required || []`. -/
def convertSchemaObject : JsonSchema → ZodValidator
  | .mk _ .noneP _ _ _ _ => zObject []
  | .mk _ (.someP ps) required _ _ _ =>
    zObject (convertProperties (required.getD []) ps)

/-- The `for (const [key, prop] of Object.entries(schema.properties))`
loop: each property's validator, wrapped in `.optional()` unless the key is
listed in `required` (`z.describe` has no validation effect and is
omitted). -/
def convertProperties (required : List String) :
    SchemaProperties → List (String × ZodValidator)
  | .nilP => []
  | .consP key prop rest =>
    (key,
      if required.contains key then convertPropertySchema prop
      else zOptional (convertPropertySchema prop)) ::
    convertProperties required rest

/-- The `switch (prop.type)`.  The `'object'` case calls
`convertJsonSchemaToZod` on the same property schema; its body is inlined
here (and likewise for `prop.items`, which is non-null when passed) so that
the recursion is structural. -/
def convertPropertySchema : JsonSchema → ZodValidator
  | .mk type properties required enumVals items _ =>
    if type = some "string" then
      match enumVals with
      | some vs => zEnum vs
      | none => zString
    else if type = some "number" then zNumber
    else if type = some "integer" then zNumberInt
    else if type = some "boolean" then zBoolean
    else if type = some "array" then
      match items with
      | .someJ itemSchema => zArray (convertSchemaObject itemSchema)
      | .noneJ => zArray zAny
    else if type = some "object" then
      match properties with
      | .noneP => zObject []
      | .someP ps => zObject (convertProperties (required.getD []) ps)
    else zAny
end

/-- `convertJsonSchemaToZod`: `!schema` (and `!schema.properties`, handled
in `convertSchemaObject`) degrade to `z.object({})`. -/
def convertJsonSchemaToZod : OptJsonSchema → ZodValidator
  | .noneJ => zObject []
  | .someJ s => convertSchemaObject s

/-- The recognised values of `prop.type`; every other type degrades to
`z.any()`. -/
def knownSchemaTypes : List (Option String) :=
  [some "string", some "number", some "integer", some "boolean",
   some "array", some "object"]

/-! ### Concrete fixtures used by witnesses and counterexamples -/

/-- The schema `{type: string}`. -/
def schemaString : JsonSchema := .mk (some "string") .noneP none none .noneJ none

/-- The schema `{type: integer}`. -/
def schemaInteger : JsonSchema := .mk (some "integer") .noneP none none .noneJ none

/-- The schema `{type: object, properties: {a: {type: string},
b: {type: integer}}, required: [a]}`. -/
def schemaAB : JsonSchema :=
  .mk (some "object")
    (.someP (.consP "a" schemaString (.consP "b" schemaInteger .nilP)))
    (some ["a"]) none .noneJ none

/-- A schema with an unrecognised `type`. -/
def schemaWeird : JsonSchema := .mk (some "null") .noneP none none .noneJ none

/-- A sample tool used by witnesses. -/
def sampleToolObj : MCPToolObj Nat Nat Nat :=
  ⟨some "sample", some 1, fun a => .ok (a + 1)⟩

/-- A tool whose execution fails. -/
def failingToolObj : MCPToolObj Nat Nat Nat :=
  ⟨none, none, fun _ => .error "execution failed"⟩

/-- A manager with one connected server `srv` exposing the tool `t`. -/
def stWithClient : ManagerState Nat Nat Nat :=
  ⟨[("srv", ⟨.ok [("t", sampleToolObj)]⟩)], [], [], [], []⟩

/-- A manager whose only server `srv` exposes a tool with the empty name. -/
def stEmptyNameTool : ManagerState Nat Nat Nat :=
  ⟨[("srv", ⟨.ok [("", sampleToolObj)]⟩)], [], [], [], []⟩

/-- A manager with a cached callable for `srv-t` whose execution fails. -/
def stCachedFailing : ManagerState Nat Nat Nat :=
  ⟨[("srv", ⟨.ok [("t", sampleToolObj)]⟩)], [], [("srv-t", failingToolObj)], [], []⟩

/-- A manager with a cached callable for `srv-t` that succeeds. -/
def stCachedOk : ManagerState Nat Nat Nat :=
  ⟨[("srv", ⟨.ok [("t", sampleToolObj)]⟩)], [], [("srv-t", sampleToolObj)], [], []⟩

/-- A manager whose only server `srv` exposes a tool `t` that fails on
execution. -/
def stWithFailingTool : ManagerState Nat Nat Nat :=
  ⟨[("srv", ⟨.ok [("t", failingToolObj)]⟩)], [], [], [], []⟩

/-- A connected client with an empty manifest. -/
def emptyClient : MCPClientConn Nat Nat Nat := ⟨.ok []⟩

/-- A sample `JSON.parse` + cast for quota bodies, used by witnesses. -/
def sampleParse : String → Option Nat :=
  fun s => if s = "quota-body" then some 7 else none

/-- Three enabled servers of which exactly one (`x`) fails to connect, and
the two successes `!` and `_21` collide on the escaped name `_21`. -/
def collideConfig : MCPConfig Nat Nat Nat :=
  ⟨[("!", ⟨false, .ok emptyClient⟩),
    ("_21", ⟨false, .ok emptyClient⟩),
    ("x", ⟨false, .error "connect failed"⟩)]⟩

/-- Three enabled servers (`a` succeeds, `b` fails, `c` succeeds) and one
disabled server `d`, with pairwise distinct escaped names. -/
def sampleConfig : MCPConfig Nat Nat Nat :=
  ⟨[("a", ⟨false, .ok emptyClient⟩),
    ("b", ⟨false, .error "boom"⟩),
    ("c", ⟨false, .ok ⟨.ok [("t", sampleToolObj)]⟩⟩),
    ("d", ⟨true, .error "never attempted"⟩)]⟩

/-! ### Lemmas about the escaping and the split/join pair -/

theorem hexDigitChar_ne_dash : ∀ n, n < 16 → hexDigitChar n ≠ '-' := by decide

theorem dash_not_mem_toHexAux : ∀ fuel n, '-' ∉ toHexAux fuel n := by
  intro fuel
  induction fuel with
  | zero => intro n h; simp [toHexAux] at h
  | succ fuel ih =>
    intro n h
    simp only [toHexAux] at h
    by_cases h16 : n < 16
    · simp [h16] at h
      exact hexDigitChar_ne_dash n h16 h.symm
    · simp [h16, List.mem_append] at h
      rcases h with h | h
      · exact ih _ h
      · exact hexDigitChar_ne_dash (n % 16) (Nat.mod_lt _ (by omega)) h.symm

theorem dash_not_mem_escapeChar (c : Char) : '-' ∉ escapeChar c := by
  unfold escapeChar
  by_cases hw : isWordChar c
  · simp [hw]
    intro h
    subst h
    exact absurd hw (by decide)
  · simp [hw]
    exact dash_not_mem_toHexAux _ _

theorem dash_not_mem_escapeServerName (s : String) :
    '-' ∉ (escapeServerName s).data := by
  show '-' ∉ ((s.data.map escapeChar).flatten)
  intro h
  rcases List.mem_flatten.mp h with ⟨l, hl, hc⟩
  rcases List.mem_map.mp hl with ⟨c, _, rfl⟩
  exact dash_not_mem_escapeChar c hc

theorem jsSplitOnChar_ne_nil (sep : Char) (l : List Char) :
    jsSplitOnChar sep l ≠ [] := by
  cases l with
  | nil => simp [jsSplitOnChar]
  | cons c cs =>
    simp only [jsSplitOnChar]
    by_cases h : c = sep
    · simp [h]
    · simp only [h, if_false]
      cases jsSplitOnChar sep cs <;> simp

theorem jsSplitOnChar_append (sep : Char) (a b : List Char) (r : List Char)
    (rs : List (List Char)) (hb : jsSplitOnChar sep b = r :: rs) (ha : sep ∉ a) :
    jsSplitOnChar sep (a ++ b) = (a ++ r) :: rs := by
  induction a with
  | nil => simpa using hb
  | cons c a ih =>
    have hc : c ≠ sep := fun h => ha (h ▸ List.mem_cons_self c a)
    have ha' : sep ∉ a := fun h => ha (List.mem_cons_of_mem c h)
    simp only [List.cons_append, jsSplitOnChar]
    have hab : a.append b = a ++ b := rfl
    rw [hab, ih ha']
    simp [hc]

theorem jsJoinChar_cons_cons (sep : Char) (x y : List Char) (ys : List (List Char)) :
    jsJoinChar sep (x :: y :: ys) = x ++ sep :: jsJoinChar sep (y :: ys) := rfl

theorem jsJoinChar_jsSplitOnChar (sep : Char) (l : List Char) :
    jsJoinChar sep (jsSplitOnChar sep l) = l := by
  induction l with
  | nil => rfl
  | cons c cs ih =>
    rcases h : jsSplitOnChar sep cs with _ | ⟨r, rs⟩
    · exact absurd h (jsSplitOnChar_ne_nil sep cs)
    · rw [h] at ih
      simp only [jsSplitOnChar, h]
      by_cases hc : c = sep
      · simp only [hc, if_true, jsJoinChar_cons_cons, List.nil_append]
        rw [ih]
      · simp only [hc, if_false]
        cases rs with
        | nil =>
          simp only [jsJoinChar] at ih ⊢
          rw [ih]
        | cons r2 rs2 =>
          simp only [jsJoinChar_cons_cons] at ih ⊢
          rw [List.cons_append, ih]

theorem jsSplitOnChar_of_not_mem (sep : Char) (l : List Char) (h : sep ∉ l) :
    jsSplitOnChar sep l = [l] := by
  induction l with
  | nil => rfl
  | cons c cs ih =>
    have hc : c ≠ sep := fun hh => h (hh ▸ List.mem_cons_self c cs)
    have h' : sep ∉ cs := fun hh => h (List.mem_cons_of_mem c hh)
    simp only [jsSplitOnChar, ih h', hc, if_false]

/-! ### Lemmas about association lists -/

theorem lookupAssoc_eq_none {κ : Type} (l : List (String × κ)) (key : String)
    (h : key ∉ l.map Prod.fst) : lookupAssoc l key = none := by
  induction l with
  | nil => rfl
  | cons kv rest ih =>
    simp only [List.map_cons, List.mem_cons] at h
    push_neg at h
    simp only [lookupAssoc]
    rw [if_neg (fun hk => h.1 hk.symm), ih h.2]

theorem lookupAssoc_mem {κ : Type} {l : List (String × κ)} {key : String} {v : κ}
    (h : lookupAssoc l key = some v) : (key, v) ∈ l := by
  induction l with
  | nil => simp [lookupAssoc] at h
  | cons kv rest ih =>
    simp only [lookupAssoc] at h
    by_cases hk : kv.1 = key
    · rw [if_pos hk] at h
      injection h with h
      subst hk
      subst h
      exact List.mem_cons_self _ _
    · rw [if_neg hk] at h
      exact List.mem_cons_of_mem _ (ih h)

theorem lookupAssoc_of_mem_nodup {κ : Type} {l : List (String × κ)}
    (hnd : (l.map Prod.fst).Nodup) {key : String} {v : κ} (h : (key, v) ∈ l) :
    lookupAssoc l key = some v := by
  induction l with
  | nil => simp at h
  | cons kv rest ih =>
    simp only [List.map_cons, List.nodup_cons] at hnd
    rcases List.mem_cons.mp h with h | h
    · simp [lookupAssoc, ← h]
    · have hk : kv.1 ≠ key := by
        intro hk
        exact hnd.1 (hk ▸ List.mem_map.mpr ⟨(key, v), h, rfl⟩)
      simp only [lookupAssoc, if_neg hk]
      exact ih hnd.2 h

theorem setAssoc_of_not_mem {κ : Type} (key : String) (v : κ)
    (l : List (String × κ)) (h : key ∉ l.map Prod.fst) :
    setAssoc key v l = l ++ [(key, v)] := by
  induction l with
  | nil => rfl
  | cons kv rest ih =>
    simp only [List.map_cons, List.mem_cons] at h
    push_neg at h
    simp only [setAssoc]
    rw [if_neg (fun hk => h.1 hk.symm), ih h.2, List.cons_append]

/-! ### Lemmas about `initializeClients` -/

theorem initializeClients_cons {α β σ : Type} (st : ManagerState α β σ)
    (kv : String × ManagedServerParameters α β σ)
    (rest : List (String × ManagedServerParameters α β σ)) :
    initializeClients st ⟨kv :: rest⟩
      = initializeClients
          (if kv.2.disabled then st else initializeSingleClient st kv.1 kv.2) ⟨rest⟩ := rfl

theorem initializeSingleClient_clients_ok {α β σ : Type} (st : ManagerState α β σ)
    (key : String) (params : ManagedServerParameters α β σ)
    (client : MCPClientConn α β σ) (h : params.connect = .ok client) :
    (initializeSingleClient st key params).clients
      = setAssoc (escapeServerName key) client st.clients := by
  simp [initializeSingleClient, h]

theorem initializeSingleClient_clients_error {α β σ : Type} (st : ManagerState α β σ)
    (key : String) (params : ManagedServerParameters α β σ)
    (e : String) (h : params.connect = .error e) :
    (initializeSingleClient st key params).clients = st.clients := by
  simp [initializeSingleClient, h]

theorem enabledEscapes_cons_disabled {α β σ : Type}
    {kv : String × ManagedServerParameters α β σ}
    (rest : List (String × ManagedServerParameters α β σ))
    (h : kv.2.disabled = true) :
    enabledEscapes (kv :: rest) = enabledEscapes rest := by
  simp [enabledEscapes, enabledB, List.filter_cons, h]

theorem enabledEscapes_cons_enabled {α β σ : Type}
    {kv : String × ManagedServerParameters α β σ}
    (rest : List (String × ManagedServerParameters α β σ))
    (h : kv.2.disabled = false) :
    enabledEscapes (kv :: rest) = escapeServerName kv.1 :: enabledEscapes rest := by
  simp [enabledEscapes, enabledB, List.filter_cons, h]

theorem connectedEntries_cons_disabled {α β σ : Type}
    {kv : String × ManagedServerParameters α β σ}
    (rest : List (String × ManagedServerParameters α β σ))
    (h : kv.2.disabled = true) :
    connectedEntries (kv :: rest) = connectedEntries rest := by
  simp [connectedEntries, List.filterMap_cons, h]

theorem connectedEntries_cons_ok {α β σ : Type}
    {kv : String × ManagedServerParameters α β σ}
    (rest : List (String × ManagedServerParameters α β σ))
    {client : MCPClientConn α β σ}
    (h : kv.2.disabled = false) (hc : kv.2.connect = .ok client) :
    connectedEntries (kv :: rest)
      = (escapeServerName kv.1, client) :: connectedEntries rest := by
  simp [connectedEntries, List.filterMap_cons, h, hc]

theorem connectedEntries_cons_error {α β σ : Type}
    {kv : String × ManagedServerParameters α β σ}
    (rest : List (String × ManagedServerParameters α β σ))
    {e : String} (h : kv.2.disabled = false) (hc : kv.2.connect = .error e) :
    connectedEntries (kv :: rest) = connectedEntries rest := by
  simp [connectedEntries, List.filterMap_cons, h, hc]

theorem initializeClients_clients {α β σ : Type} :
    ∀ (servers : List (String × ManagedServerParameters α β σ))
      (st : ManagerState α β σ),
      (enabledEscapes servers).Nodup →
      (∀ e ∈ enabledEscapes servers, e ∉ st.clients.map Prod.fst) →
      (initializeClients st ⟨servers⟩).clients = st.clients ++ connectedEntries servers
  | [], st, _, _ => by
    simp [initializeClients, connectedEntries]
  | kv :: rest, st, hnd, hdisj => by
    rw [initializeClients_cons]
    cases hd : kv.2.disabled with
    | true =>
      rw [if_pos rfl, connectedEntries_cons_disabled rest hd]
      rw [enabledEscapes_cons_disabled rest hd] at hnd hdisj
      exact initializeClients_clients rest st hnd hdisj
    | false =>
      rw [if_neg Bool.false_ne_true]
      rw [enabledEscapes_cons_enabled rest hd] at hnd hdisj
      have hndr := (List.nodup_cons.mp hnd).2
      have hhead := (List.nodup_cons.mp hnd).1
      cases hc : kv.2.connect with
      | ok client =>
        have hcl : (initializeSingleClient st kv.1 kv.2).clients
            = st.clients ++ [(escapeServerName kv.1, client)] := by
          rw [initializeSingleClient_clients_ok st kv.1 kv.2 client hc]
          exact setAssoc_of_not_mem _ _ _
            (hdisj _ (List.mem_cons_self _ _))
        have hdisj' : ∀ e ∈ enabledEscapes rest,
            e ∉ (initializeSingleClient st kv.1 kv.2).clients.map Prod.fst := by
          intro e he
          rw [hcl]
          simp only [List.map_append, List.mem_append, List.map_cons, List.map_nil,
            List.mem_cons, List.not_mem_nil]
          push_neg
          refine ⟨hdisj e (List.mem_cons_of_mem _ he), ?_, fun h => h⟩
          intro hee
          exact hhead (hee ▸ he)
        rw [initializeClients_clients rest _ hndr hdisj', hcl,
          connectedEntries_cons_ok rest hd hc]
        simp
      | error e =>
        have hcl := initializeSingleClient_clients_error st kv.1 kv.2 e hc
        have hdisj' : ∀ x ∈ enabledEscapes rest,
            x ∉ (initializeSingleClient st kv.1 kv.2).clients.map Prod.fst := by
          intro x hx
          rw [hcl]
          exact hdisj x (List.mem_cons_of_mem _ hx)
        rw [initializeClients_clients rest _ hndr hdisj', hcl,
          connectedEntries_cons_error rest hd hc]

theorem connectedEntries_length {α β σ : Type}
    (servers : List (String × ManagedServerParameters α β σ)) :
    (connectedEntries servers).length + (servers.filter enabledFailedB).length
      = (servers.filter enabledB).length := by
  induction servers with
  | nil => rfl
  | cons kv rest ih =>
    cases hd : kv.2.disabled with
    | true =>
      rw [connectedEntries_cons_disabled rest hd]
      simp only [List.filter_cons, enabledFailedB, enabledB, hd]
      simp only [Bool.not_true, Bool.false_and, Bool.false_eq_true, if_false]
      exact ih
    | false =>
      cases hc : kv.2.connect with
      | ok client =>
        rw [connectedEntries_cons_ok rest hd hc]
        simp [List.filter_cons, enabledFailedB, enabledB, hd, hc]
        omega
      | error e =>
        rw [connectedEntries_cons_error rest hd hc]
        simp [List.filter_cons, enabledFailedB, enabledB, hd, hc]
        omega

theorem connectedEntries_keys_sublist {α β σ : Type}
    (servers : List (String × ManagedServerParameters α β σ)) :
    List.Sublist ((connectedEntries servers).map Prod.fst) (enabledEscapes servers) := by
  induction servers with
  | nil => simp [connectedEntries, enabledEscapes]
  | cons kv rest ih =>
    cases hd : kv.2.disabled with
    | true =>
      rw [connectedEntries_cons_disabled rest hd, enabledEscapes_cons_disabled rest hd]
      exact ih
    | false =>
      rw [enabledEscapes_cons_enabled rest hd]
      cases hc : kv.2.connect with
      | ok client =>
        rw [connectedEntries_cons_ok rest hd hc]
        exact List.Sublist.cons₂ _ ih
      | error e =>
        rw [connectedEntries_cons_error rest hd hc]
        exact List.Sublist.cons _ ih

theorem mem_connectedEntries {α β σ : Type}
    {servers : List (String × ManagedServerParameters α β σ)}
    {e : String} {c : MCPClientConn α β σ} :
    (e, c) ∈ connectedEntries servers ↔
      ∃ kv ∈ servers, kv.2.disabled = false ∧ kv.2.connect = .ok c
        ∧ e = escapeServerName kv.1 := by
  unfold connectedEntries
  rw [List.mem_filterMap]
  constructor
  · rintro ⟨kv, hkv, hf⟩
    refine ⟨kv, hkv, ?_⟩
    cases hd : kv.2.disabled with
    | true => rw [if_pos hd] at hf; exact absurd hf (by simp)
    | false =>
      rw [if_neg (by simp [hd])] at hf
      cases hc : kv.2.connect with
      | ok client =>
        rw [hc] at hf
        simp only [Option.some.injEq, Prod.mk.injEq] at hf
        exact ⟨rfl, congrArg Except.ok hf.2, hf.1.symm⟩
      | error err => rw [hc] at hf; exact absurd hf (by simp)
  · rintro ⟨kv, hkv, hd, hc, he⟩
    exact ⟨kv, hkv, by rw [if_neg (by simp [hd]), hc, he]⟩

/-! ### Escaping is the identity on `[A-Za-z0-9_]` identifiers -/

theorem flatten_escapeChar_of_word : ∀ (l : List Char),
    (∀ c ∈ l, isWordChar c = true) → (l.map escapeChar).flatten = l
  | [], _ => rfl
  | c :: cs, h => by
    simp only [List.map_cons, List.flatten_cons]
    rw [show escapeChar c = [c] from by
      simp [escapeChar, h c (List.mem_cons_self c cs)]]
    rw [flatten_escapeChar_of_word cs (fun x hx => h x (List.mem_cons_of_mem c hx))]
    rfl

theorem escapeServerName_id_of_word (s : String)
    (h : ∀ c ∈ s.data, isWordChar c = true) : escapeServerName s = s := by
  unfold escapeServerName
  rw [flatten_escapeChar_of_word s.data h]
  exact rfl

/-! ### Claim C1 -/

/-- Claim C1: for every raw server id `s` and every tool name `t` (also when
`t` itself contains the separator `'-'`), decomposing the composed prefixed
name `escapeServerName s ++ "-" ++ t` by splitting on the first `'-'` yields
exactly `(escapeServerName s, t)`: the fragments after the first separator
are rejoined over any internal `'-'`, and the escaped server id never
contains the separator. -/
theorem dispatchToolDefinitionName_of_composed (s t : String) :
    dispatchToolDefinitionName (escapeServerName s ++ "-" ++ t)
      = (escapeServerName s, t) := by
  have hdata : (escapeServerName s ++ "-" ++ t).data
      = (escapeServerName s).data ++ ('-' :: t.data) := by
    show (escapeServerName s).data ++ ['-'] ++ t.data = _
    rw [List.append_assoc]
    rfl
  have h1 : jsSplitOnChar '-' ('-' :: t.data) = [] :: jsSplitOnChar '-' t.data := by
    simp [jsSplitOnChar]
  have h2 := jsSplitOnChar_append '-' (escapeServerName s).data ('-' :: t.data)
    [] (jsSplitOnChar '-' t.data) h1 (dash_not_mem_escapeServerName s)
  unfold dispatchToolDefinitionName
  rw [hdata, h2, List.append_nil]
  show ((escapeServerName s).data.asString,
    (jsJoinChar '-' (jsSplitOnChar '-' t.data)).asString) = _
  rw [jsJoinChar_jsSplitOnChar]
  exact rfl

/-! ### Claim C2 -/

/-- Claim C2 counterexample: `escapeServerName` is not injective over all
strings.  The raw ids `"!"` and `"_21"` are distinct, but `'!'` (code point
0x21) escapes to `"_21"` while `"_21"` consists of `[A-Za-z0-9_]` characters
and passes through unchanged, so both map to `"_21"`. -/
theorem escapeServerName_not_injective :
    escapeServerName "!" = escapeServerName "_21" ∧ "!" ≠ "_21" := by
  constructor
  · rfl
  · decide

/-- Claim C2 (amended): the escaping is injective on raw identifiers that
use only characters from `[A-Za-z0-9_]` (on which it is the identity);
injectivity over all strings fails (see the counterexample). -/
theorem escapeServerName_injective_on_word_chars (s1 s2 : String)
    (h1 : ∀ c ∈ s1.data, isWordChar c = true)
    (h2 : ∀ c ∈ s2.data, isWordChar c = true)
    (hne : s1 ≠ s2) : escapeServerName s1 ≠ escapeServerName s2 := by
  rw [escapeServerName_id_of_word s1 h1, escapeServerName_id_of_word s2 h2]
  exact hne

theorem escapeServerName_injective_on_word_chars_witness :
    escapeServerName "srv1" ≠ escapeServerName "srv2" :=
  escapeServerName_injective_on_word_chars "srv1" "srv2"
    (by decide) (by decide) (by decide)

/-! ### Claim C4 -/

/-- Claim C4 (code bug): `abortStream()` is claimed to return `true` iff a
stream is actually active.  It reports the presence of
`this.abortController`, which `stream()` installs on entry but clears only
in the `finally` of the inner `try/catch` inside the `catch` block — a path
the happy path never runs.  So after a stream resolves successfully no
stream is active, yet `abortStream()` still returns `true` (and triggers
the stale controller); the equivalence holds before any stream, mid-flight
and after an error resolution. -/
theorem abortStream_true_after_completed_stream :
    streamActive [LlmEvent.streamStart, LlmEvent.streamResolve false] = false
    ∧ abortStream (runLlm [LlmEvent.streamStart, LlmEvent.streamResolve false]) = true
    ∧ abortStream (runLlm []) = false
    ∧ abortStream (runLlm [LlmEvent.streamStart]) = true
    ∧ streamActive [LlmEvent.streamStart] = true
    ∧ abortStream (runLlm [LlmEvent.streamStart, LlmEvent.streamResolve true]) = false
    ∧ streamActive [LlmEvent.streamStart, LlmEvent.streamResolve true] = false := by
  decide

/-! ### Claim C3 -/

/-- Claim C3: `stream()` always resolves to exactly one terminal outcome and
never rejects — the classification of a caught failure is the total function
`classifyStreamError`.  A provider error with structured status 403 and a
parseable quota body resolves to the rate-limited outcome carrying the
parsed quota data; a provider error with another (truthy) structured status
resolves to the error outcome with the body as the message (an unparseable
403 body lands in the inner `catch` and yields the unknown-error message);
any other caught exception — including the `AbortError` (`instanceof
Error`) raised by cancellation through the abort signal — resolves to the
error outcome with the best-effort `getErrorMessage` text. -/
theorem classifyStreamError_terminal_outcomes {μ Q : Type}
    (parse : String → Option Q) :
    (∀ body q, parse body = some q →
      classifyStreamError (μ := μ) parse (.providerErr 403 (some body))
        = .rateLimited q)
  ∧ (∀ (sc : Int) (body : Option String), sc ≠ 0 → sc ≠ 403 →
      classifyStreamError (μ := μ) parse (.providerErr sc body) = .errorResp body)
  ∧ (∀ body, parse body = none →
      classifyStreamError (μ := μ) parse (.providerErr 403 (some body))
        = .errorResp (some "An unknown error occurred"))
  ∧ (∀ e : CaughtError, e.isProviderError = false →
      classifyStreamError (μ := μ) parse e = .errorResp (some (getErrorMessage e)))
  ∧ (∀ m, classifyStreamError (μ := μ) parse (.jsError m) = .errorResp (some m)) := by
  refine ⟨?_, ?_, ?_, ?_, ?_⟩
  · intro body q hq
    simp [classifyStreamError, hq]
  · intro sc body h0 h403
    simp only [classifyStreamError]
    rw [if_pos h0, if_neg h403]
  · intro body hq
    simp [classifyStreamError, hq]
  · intro e he
    cases e with
    | providerErr sc body => simp [CaughtError.isProviderError] at he
    | jsError m => rfl
    | stringErr s => rfl
    | responseErr s => rfl
    | objWithMessage m => rfl
    | otherErr => rfl
  · intro m
    rfl

theorem classifyStreamError_terminal_outcomes_witness :
    classifyStreamError (μ := Nat) sampleParse
        (.providerErr 403 (some "quota-body")) = .rateLimited 7
  ∧ classifyStreamError (μ := Nat) sampleParse
        (.providerErr 500 (some "server error")) = .errorResp (some "server error")
  ∧ classifyStreamError (μ := Nat) sampleParse
        (.jsError "The operation was aborted")
      = .errorResp (some "The operation was aborted") :=
  ⟨(classifyStreamError_terminal_outcomes sampleParse).1 "quota-body" 7 (by decide),
   (classifyStreamError_terminal_outcomes sampleParse).2.1 500 (some "server error")
     (by decide) (by decide),
   (classifyStreamError_terminal_outcomes sampleParse).2.2.2.2 "The operation was aborted"⟩

/-! ### Claim C6 -/

/-- Claim C6: `callTool` fails with `No client found for server: …` exactly
on the escaped server id extracted from the prefixed name when no connected
client owns that id; on a connected server with no cached callable whose
fetched toolset has no tool matching the extracted raw tool name it fails
with `Tool not found: …`; and an invocation (cached or freshly resolved)
returns the provider's result payload unchanged on success and rethrows the
invocation failure to the caller. -/
theorem callTool_classification {α β σ : Type} (st : ManagerState α β σ)
    (name : String) (args : α) :
    (lookupAssoc st.clients (dispatchToolDefinitionName name).1 = none →
      callTool st name args
        = .error ("No client found for server: " ++ (dispatchToolDefinitionName name).1))
  ∧ (∀ (client : MCPClientConn α β σ) toolSet,
      lookupAssoc st.clients (dispatchToolDefinitionName name).1 = some client →
      lookupAssoc st.toolsCache name = none →
      client.tools = .ok toolSet →
      lookupAssoc toolSet (dispatchToolDefinitionName name).2 = none →
      callTool st name args
        = .error ("Tool not found: " ++ (dispatchToolDefinitionName name).2))
  ∧ (∀ (client : MCPClientConn α β σ) toolFn result,
      lookupAssoc st.clients (dispatchToolDefinitionName name).1 = some client →
      lookupAssoc st.toolsCache name = some toolFn →
      toolFn.execute args = .ok result →
      callTool st name args = .ok (result, st))
  ∧ (∀ (client : MCPClientConn α β σ) toolFn e,
      lookupAssoc st.clients (dispatchToolDefinitionName name).1 = some client →
      lookupAssoc st.toolsCache name = some toolFn →
      toolFn.execute args = .error e →
      callTool st name args = .error e)
  ∧ (∀ (client : MCPClientConn α β σ) toolSet toolFn result,
      lookupAssoc st.clients (dispatchToolDefinitionName name).1 = some client →
      lookupAssoc st.toolsCache name = none →
      client.tools = .ok toolSet →
      lookupAssoc toolSet (dispatchToolDefinitionName name).2 = some toolFn →
      toolFn.execute args = .ok result →
      callTool st name args
        = .ok (result, { st with toolsCache := setAssoc name toolFn st.toolsCache }))
  ∧ (∀ (client : MCPClientConn α β σ) toolSet toolFn e,
      lookupAssoc st.clients (dispatchToolDefinitionName name).1 = some client →
      lookupAssoc st.toolsCache name = none →
      client.tools = .ok toolSet →
      lookupAssoc toolSet (dispatchToolDefinitionName name).2 = some toolFn →
      toolFn.execute args = .error e →
      callTool st name args = .error e) := by
  refine ⟨?_, ?_, ?_, ?_, ?_, ?_⟩
  · intro h
    simp [callTool, h]
  · intro client toolSet h1 h2 h3 h4
    simp [callTool, h1, h2, h3, h4]
  · intro client toolFn result h1 h2 h3
    simp [callTool, h1, h2, h3]
  · intro client toolFn e h1 h2 h3
    simp [callTool, h1, h2, h3]
  · intro client toolSet toolFn result h1 h2 h3 h4 h5
    simp [callTool, h1, h2, h3, h4, h5]
  · intro client toolSet toolFn e h1 h2 h3 h4 h5
    simp [callTool, h1, h2, h3, h4, h5]

theorem callTool_classification_witness :
    callTool stWithClient "a-b" 0 = .error "No client found for server: a"
  ∧ callTool stWithClient "srv-miss" 0 = .error "Tool not found: miss"
  ∧ callTool stCachedOk "srv-t" 4 = .ok (5, stCachedOk)
  ∧ callTool stCachedFailing "srv-t" 4 = .error "execution failed"
  ∧ callTool stWithClient "srv-t" 4
      = .ok (5, { stWithClient with toolsCache := [("srv-t", sampleToolObj)] })
  ∧ callTool stWithFailingTool "srv-t" 0 = .error "execution failed" :=
  ⟨(callTool_classification stWithClient "a-b" 0).1 rfl,
   (callTool_classification stWithClient "srv-miss" 0).2.1 _ _ rfl rfl rfl rfl,
   (callTool_classification stCachedOk "srv-t" 4).2.2.1 _ _ 5 rfl rfl rfl,
   (callTool_classification stCachedFailing "srv-t" 4).2.2.2.1 _ _ _ rfl rfl rfl,
   (callTool_classification stWithClient "srv-t" 4).2.2.2.2.1 _ _ _ 5 rfl rfl rfl rfl rfl,
   (callTool_classification stWithFailingTool "srv-t" 0).2.2.2.2.2 _ _ _ _ rfl rfl rfl rfl rfl⟩

/-! ### Claim C7 -/

/-- Claim C7: when a call of `listAllTools` produced (and cached) a
non-empty tool list, calling it again with no teardown in between returns
the identical cached sequence, leaves the state unchanged, and issues zero
`client.tools()` queries. -/
theorem listAllTools_cached {α β σ : Type} (st : ManagerState α β σ)
    (h : 0 < (listAllTools st).1.length) :
    listAllTools (listAllTools st).2.1
      = ((listAllTools st).1, (listAllTools st).2.1, 0) := by
  by_cases h0 : 0 < st.tools.length
  · simp [listAllTools, h0]
  · simp only [listAllTools, if_neg h0] at h ⊢
    simp only [if_pos h]

theorem listAllTools_cached_witness :
    listAllTools (listAllTools stWithClient).2.1
      = ((listAllTools stWithClient).1, (listAllTools stWithClient).2.1, 0) :=
  listAllTools_cached stWithClient (by decide)

/-! ### Claim C10 -/

/-- Claim C10 counterexample: the claim asserts that `callTool` on a name
with no separator never invokes any tool and fails with `NoClient` or
`ToolNotFound`.  But when the whole name is a connected server's escaped id
and that server's toolset contains a tool under the empty name, the
extracted tool name `""` matches it and `callTool` invokes it and succeeds
(here returning the payload `6` and caching the callable). -/
theorem callTool_no_separator_counterexample :
    ('-' ∉ "srv".data)
    ∧ callTool stEmptyNameTool "srv" 5
        = .ok (6, { stEmptyNameTool with toolsCache := [("srv", sampleToolObj)] }) :=
  ⟨by decide, rfl⟩

/-- Claim C10 (amended): name decomposition is total on names with no
separator — the whole input becomes the escaped server id and the tool name
is empty — and `callTool` on such a name fails with the `NoClient` error
when no connected client owns the whole name; when one does (with no cached
callable for the name and a successful manifest fetch), it fails with the
`ToolNotFound` error provided the toolset has no tool under the empty
name. -/
theorem callTool_no_separator {α β σ : Type} :
    (∀ name : String, '-' ∉ name.data →
      dispatchToolDefinitionName name = (name, ""))
  ∧ (∀ (st : ManagerState α β σ) (name : String) (args : α), '-' ∉ name.data →
      lookupAssoc st.clients name = none →
      callTool st name args = .error ("No client found for server: " ++ name))
  ∧ (∀ (st : ManagerState α β σ) (name : String) (args : α)
      (client : MCPClientConn α β σ) toolSet, '-' ∉ name.data →
      lookupAssoc st.clients name = some client →
      lookupAssoc st.toolsCache name = none →
      client.tools = .ok toolSet →
      lookupAssoc toolSet "" = none →
      callTool st name args = .error "Tool not found: ") := by
  have hdisp : ∀ name : String, '-' ∉ name.data →
      dispatchToolDefinitionName name = (name, "") := by
    intro name h
    unfold dispatchToolDefinitionName
    rw [jsSplitOnChar_of_not_mem '-' name.data h]
    exact rfl
  refine ⟨hdisp, ?_, ?_⟩
  · intro st name args h hcl
    simp [callTool, hdisp name h, hcl]
  · intro st name args client toolSet h h1 h2 h3 h4
    simp [callTool, hdisp name h, h1, h2, h3, h4]

theorem callTool_no_separator_witness :
    dispatchToolDefinitionName "plainname" = ("plainname", "")
  ∧ callTool stWithClient "plainname" 0
      = .error "No client found for server: plainname"
  ∧ callTool stWithClient "srv" 0 = .error "Tool not found: " :=
  ⟨(callTool_no_separator (α := Nat) (β := Nat) (σ := Nat)).1 "plainname" (by decide),
   (callTool_no_separator (α := Nat) (β := Nat) (σ := Nat)).2.1
     stWithClient "plainname" 0 (by decide) rfl,
   (callTool_no_separator (α := Nat) (β := Nat) (σ := Nat)).2.2
     stWithClient "srv" 0 _ _ (by decide) rfl rfl rfl rfl⟩

/-! ### Claim C5 -/

/-- Claim C5 counterexample: with 3 enabled descriptors of which exactly
one (`x`) throws on connect, the claim promises exactly 2 Connected
entries; but the two succeeding servers `!` and `_21` escape to the same
identifier `_21`, the later assignment overwrites the earlier one, and the
client map ends up with exactly 1 entry. -/
theorem initializeClients_collision_counterexample :
    (collideConfig.mcpServers.filter enabledB).length = 3
    ∧ (collideConfig.mcpServers.filter enabledFailedB).length = 1
    ∧ (initializeClients initialManagerState collideConfig).clients.length = 1
    ∧ escapeServerName "!" = escapeServerName "_21" :=
  ⟨by decide, by decide, by decide, rfl⟩

/-- Claim C5 (amended): provided the enabled descriptors' escaped
identifiers are pairwise distinct, client initialization — a total
function in this model, so no exception escapes and it settles only after
every per-server attempt is folded in — skips disabled descriptors, gives
every enabled descriptor with a successful connect a Connected entry under
its escaped id, leaves the failing server's escaped id absent, and with
exactly one enabled failing descriptor produces exactly (enabled − 1)
entries. -/
theorem initializeClients_isolated_failure {α β σ : Type} (config : MCPConfig α β σ)
    (hnd : (enabledEscapes config.mcpServers).Nodup)
    (hone : (config.mcpServers.filter enabledFailedB).length = 1) :
    (initializeClients initialManagerState config).clients
        = connectedEntries config.mcpServers
    ∧ (∀ kv ∈ config.mcpServers, ∀ client : MCPClientConn α β σ,
        kv.2.disabled = false → kv.2.connect = .ok client →
        lookupAssoc (initializeClients initialManagerState config).clients
          (escapeServerName kv.1) = some client)
    ∧ (∀ kv ∈ config.mcpServers, ∀ e : String,
        kv.2.disabled = false → kv.2.connect = .error e →
        lookupAssoc (initializeClients initialManagerState config).clients
          (escapeServerName kv.1) = none)
    ∧ (initializeClients initialManagerState config).clients.length + 1
        = (config.mcpServers.filter enabledB).length := by
  obtain ⟨servers⟩ := config
  have hmain : (initializeClients initialManagerState ⟨servers⟩).clients
      = connectedEntries servers := by
    have h := initializeClients_clients servers initialManagerState hnd
      (by intro e he; simp [initialManagerState])
    simpa [initialManagerState] using h
  have hkeys : ((connectedEntries (α := α) (β := β) (σ := σ) servers).map Prod.fst).Nodup :=
    hnd.sublist (connectedEntries_keys_sublist servers)
  refine ⟨hmain, ?_, ?_, ?_⟩
  · intro kv hkv client hd hc
    rw [hmain]
    exact lookupAssoc_of_mem_nodup hkeys
      (mem_connectedEntries.mpr ⟨kv, hkv, hd, hc, rfl⟩)
  · intro kv hkv e hd hc
    rw [hmain]
    apply lookupAssoc_eq_none
    intro hmem
    obtain ⟨p, hp, hpe⟩ := List.mem_map.mp hmem
    obtain ⟨kv', hkv', hd', hc', he'⟩ :=
      mem_connectedEntries.mp (show (p.1, p.2) ∈ _ from hp)
    have hkvf : kv ∈ servers.filter enabledB :=
      List.mem_filter.mpr ⟨hkv, by simp [enabledB, hd]⟩
    have hkvf' : kv' ∈ servers.filter enabledB :=
      List.mem_filter.mpr ⟨hkv', by simp [enabledB, hd']⟩
    have heq : escapeServerName kv'.1 = escapeServerName kv.1 := by
      rw [← he', hpe]
    have : kv' = kv :=
      List.inj_on_of_nodup_map hnd hkvf' hkvf heq
    rw [this] at hc'
    rw [hc'] at hc
    exact absurd hc (by simp)
  · rw [hmain]
    have h := connectedEntries_length (α := α) (β := β) (σ := σ) servers
    dsimp only at hone ⊢
    omega

theorem initializeClients_isolated_failure_witness :
    (initializeClients initialManagerState sampleConfig).clients.length + 1
        = (sampleConfig.mcpServers.filter enabledB).length
    ∧ lookupAssoc (initializeClients initialManagerState sampleConfig).clients
        (escapeServerName "b") = none
    ∧ lookupAssoc (initializeClients initialManagerState sampleConfig).clients
        (escapeServerName "a") = some emptyClient :=
  ⟨(initializeClients_isolated_failure sampleConfig (by decide) (by decide)).2.2.2,
   (initializeClients_isolated_failure sampleConfig (by decide) (by decide)).2.2.1
     ("b", ⟨false, .error "boom"⟩)
     (List.mem_cons_of_mem _ (List.mem_cons_self _ _)) "boom" rfl rfl,
   (initializeClients_isolated_failure sampleConfig (by decide) (by decide)).2.1
     ("a", ⟨false, .ok emptyClient⟩) (List.mem_cons_self _ _) emptyClient rfl rfl⟩

/-! ### Claim C8 -/

theorem streamEventTrace_ne_nil {ε : Type} (events : List ε) :
    streamEventTrace events ≠ [] := by
  cases events <;> simp [streamEventTrace]

theorem emittedPayloads_streamEventTrace {ε : Type} (events : List ε) :
    emittedPayloads (streamEventTrace events) = events := by
  induction events with
  | nil => rfl
  | cons e es ih => simp [streamEventTrace, emittedPayloads, emitMessagePart, ih]

theorem consumedEvents_streamEventTrace {ε : Type} (events : List ε) :
    consumedEvents (streamEventTrace events) = events := by
  induction events with
  | nil => rfl
  | cons e es ih => simp [streamEventTrace, consumedEvents, ih]

theorem streamEventTrace_getLast {ε : Type} (events : List ε) :
    (streamEventTrace events).getLast? = some .resolveStream := by
  induction events with
  | nil => rfl
  | cons e es ih =>
    rcases h : streamEventTrace es with _ | ⟨a, tl⟩
    · exact absurd h (streamEventTrace_ne_nil es)
    · rw [h] at ih
      simp only [streamEventTrace, h, List.getLast?_cons_cons]
      exact ih

theorem resolveCount_streamEventTrace {ε : Type} (events : List ε) :
    resolveCount (streamEventTrace events) = 1 := by
  induction events with
  | nil => rfl
  | cons e es ih =>
    simp only [streamEventTrace, resolveCount, List.countP_cons] at ih ⊢
    simp [isResolveAction, ih]

theorem streamEventTrace_take_counts {ε : Type} (events : List ε) : ∀ n : Nat,
    (emittedPayloads ((streamEventTrace events).take n)).length
      ≤ (consumedEvents ((streamEventTrace events).take n)).length
    ∧ (consumedEvents ((streamEventTrace events).take n)).length
      ≤ (emittedPayloads ((streamEventTrace events).take n)).length + 1 := by
  induction events with
  | nil =>
    intro n
    cases n with
    | zero => simp [emittedPayloads, consumedEvents]
    | succ m =>
      simp [streamEventTrace, List.take_succ_cons, emittedPayloads, consumedEvents]
  | cons e es ih =>
    intro n
    match n with
    | 0 => simp [emittedPayloads, consumedEvents]
    | 1 =>
      simp [streamEventTrace, List.take_succ_cons, emittedPayloads, consumedEvents]
    | (m + 2) =>
      simp only [streamEventTrace, List.take_succ_cons, emittedPayloads,
        consumedEvents, List.length_cons]
      have := ih m
      omega

/-- Claim C8: for every finite sequence of partial events the model stream
produces, the consumer loop forwards exactly that sequence to the display
channel, one envelope per event, in production order — nothing is dropped
or reordered, at every point of the trace the number of forwarded
envelopes trails the number of consumed events by at most one (each event
is forwarded before the next is consumed), and the single resolution comes
last, after every envelope. -/
theorem stream_forwards_in_order {ε : Type} (events : List ε) :
    emittedPayloads (streamEventTrace events) = events
    ∧ consumedEvents (streamEventTrace events) = events
    ∧ (streamEventTrace events).getLast? = some .resolveStream
    ∧ resolveCount (streamEventTrace events) = 1
    ∧ (∀ n : Nat,
        (emittedPayloads ((streamEventTrace events).take n)).length
          ≤ (consumedEvents ((streamEventTrace events).take n)).length
        ∧ (consumedEvents ((streamEventTrace events).take n)).length
          ≤ (emittedPayloads ((streamEventTrace events).take n)).length + 1) :=
  ⟨emittedPayloads_streamEventTrace events, consumedEvents_streamEventTrace events,
   streamEventTrace_getLast events, resolveCount_streamEventTrace events,
   streamEventTrace_take_counts events⟩

/-! ### Claim C9 -/

/-- Claim C9: translating `{type: object, properties: {a: {type: string},
b: {type: integer}}, required: [a]}` produces a validator that accepts an
object exactly when its property `a` is present and a string, and its
property `b`, when present, is an integral number (`a` mandatory string,
`b` optional integer); and any property whose `type` is not one of
string/number/integer/boolean/array/object degrades to the unconstrained
accept-anything validator. -/
theorem convertJsonSchemaToZod_spec :
    (∀ kvs : List (String × Json),
      convertJsonSchemaToZod (.someJ schemaAB) (some (.obj kvs))
        = ((match lookupAssoc kvs "a" with
            | some (.str _) => true
            | _ => false)
           && (match lookupAssoc kvs "b" with
               | none => true
               | some (.num q) => q.den == 1
               | _ => false)))
  ∧ (∀ (type : Option String) (properties : OptProperties)
      (required enumVals : Option (List String)) (items : OptJsonSchema)
      (description : Option String),
      type ∉ knownSchemaTypes →
      ∀ v : Option Json,
        convertPropertySchema
          (.mk type properties required enumVals items description) v = true) := by
  constructor
  · intro kvs
    show zObject [("a", zString), ("b", zOptional zNumberInt)] (some (.obj kvs)) = _
    simp only [zObject, List.all_cons, List.all_nil, Bool.and_true]
    rcases lookupAssoc kvs "a" with _ | va <;>
      rcases lookupAssoc kvs "b" with _ | vb <;>
      (try cases va) <;> (try cases vb) <;> rfl
  · intro type properties required enumVals items description h v
    simp only [knownSchemaTypes, List.mem_cons, List.not_mem_nil, or_false] at h
    push_neg at h
    obtain ⟨h1, h2, h3, h4, h5, h6⟩ := h
    unfold convertPropertySchema
    rw [if_neg h1, if_neg h2, if_neg h3, if_neg h4, if_neg h5, if_neg h6]
    rfl

theorem convertJsonSchemaToZod_spec_witness :
    convertJsonSchemaToZod (.someJ schemaAB) (some (.obj [("a", .str "x")])) = true
    ∧ convertPropertySchema (.mk (some "null") .noneP none none .noneJ none)
        (some (.bool true)) = true :=
  ⟨(convertJsonSchemaToZod_spec.1 [("a", .str "x")]).trans (by decide),
   convertJsonSchemaToZod_spec.2 (some "null") .noneP none none .noneJ none
     (by decide) (some (.bool true))⟩
